import Mathlib

/-!
Verification of the FLamby repository fragments: the `HeartDiseaseRaw`
dataset partitioner (`flamby/datasets/fed_heart_disease/dataset.py`),
the results plotter (`flamby/results/plot_results.py`) and the
`update_config.py` CLI script.  The Python code is shallowly embedded:
pandas dataframes become lists of rational rows, torch tensors become
lists of rationals (statistics are taken in `ℝ` since `torch.std` is a
square root), and raised exceptions become `Except` values.
-/

namespace FLamby

/-! ## Heart disease partitioner: train/test sizes

`HeartDiseaseRaw.__init__` sets `self.train_fraction = 0.66` and calls
`sklearn.model_selection.train_test_split(np.arange(nb),
test_size=1.0 - self.train_fraction, train_size=self.train_fraction,
random_state=43, shuffle=True, stratify=...)`.  sklearn's
`_validate_shuffle_split` turns fractional sizes into counts by
`n_test = ceil(test_size * n)` and `n_train = floor(train_size * n)`. -/

/-- `self.train_fraction = 0.66` from `HeartDiseaseRaw.__init__`. -/
def trainFraction : ℚ := 66 / 100

/-- Number of train rows produced by `train_test_split` for a center of
`nb` retained rows: `floor(train_size * nb)` with `train_size = 0.66`. -/
def nTrainOf (nb : ℕ) : ℕ := (⌊trainFraction * nb⌋).toNat

/-- Number of test rows produced by `train_test_split` for a center of
`nb` retained rows: `ceil(test_size * nb)` with
`test_size = 1.0 - 0.66`. -/
def nTestOf (nb : ℕ) : ℕ := (⌈(1 - trainFraction) * nb⌉).toNat

/-- The property claimed for the split sizes: the train set receives
exactly the fraction `0.66` of the `nb` rows and the test set the
complementary fraction `0.34`. -/
def SplitFractionExact (nb : ℕ) : Prop :=
  (nTrainOf nb : ℚ) = trainFraction * nb ∧
    (nTestOf nb : ℚ) = (1 - trainFraction) * nb

instance (nb : ℕ) : Decidable (SplitFractionExact nb) := by
  unfold SplitFractionExact; infer_instance

/-! ## Heart disease partitioner: set assignment

After the split, `__init__` runs
`for i in np.arange(nb): if i in indices_test: sets.append("test")
else: sets.append("train")`, so every index gets exactly one label and
the train part is the complement of `indices_test`. -/

/-- The `self.sets` entries appended for one center: index `i` is
labelled `"test"` when it occurs in `indices_test`, else `"train"`. -/
def setsOfCenter (nb : ℕ) (indicesTest : List ℕ) : List String :=
  (List.range nb).map (fun i => if i ∈ indicesTest then "test" else "train")

/-- Indices of a center labelled `"train"` by the assignment loop. -/
def trainIndices (nb : ℕ) (indicesTest : List ℕ) : Finset ℕ :=
  (Finset.range nb).filter (fun i => (setsOfCenter nb indicesTest).getD i "" = "train")

/-- Indices of a center labelled `"test"` by the assignment loop. -/
def testIndices (nb : ℕ) (indicesTest : List ℕ) : Finset ℕ :=
  (Finset.range nb).filter (fun i => (setsOfCenter nb indicesTest).getD i "" = "test")

theorem setsOfCenter_getD (nb : ℕ) (indicesTest : List ℕ) (i : ℕ) (h : i < nb) :
    (setsOfCenter nb indicesTest).getD i "" =
      if i ∈ indicesTest then "test" else "train" := by
  have hlen : i < (setsOfCenter nb indicesTest).length := by
    simpa [setsOfCenter] using h
  rw [List.getD_eq_getElem _ _ hlen]
  simp [setsOfCenter, h]

/-- C2, counterexample: for a center with `nb = 10` retained rows the
train set receives `floor(0.66 * 10) = 6` rows, a fraction `0.6` of the
rows, not the configured `0.66`; so the claimed exact proportions fail. -/
theorem heart_c2_counterexample : ¬ SplitFractionExact 10 := by
  have hfl : nTrainOf 10 = 6 := by
    unfold nTrainOf
    have h2 : ⌊trainFraction * ((10:ℕ):ℚ)⌋ = 6 := by
      rw [Int.floor_eq_iff]
      norm_num [trainFraction]
    rw [h2]
    rfl
  rintro ⟨htr, -⟩
  rw [hfl] at htr
  norm_num [trainFraction] at htr

/-- C2, amended: the split assigns `floor(0.66 * nb)` rows to the train
set and the complementary `ceil(0.34 * nb)` rows to the test set; these
always partition the `nb` rows, and the proportions equal the configured
fractions `0.66` and `0.34` exactly if and only if `50` divides `nb`. -/
theorem heart_c2_amended (nb : ℕ) :
    nTrainOf nb + nTestOf nb = nb ∧ (SplitFractionExact nb ↔ 50 ∣ nb) := by
  have hx0 : (0:ℚ) ≤ trainFraction * nb := by
    have : (0:ℚ) ≤ trainFraction := by norm_num [trainFraction]
    positivity
  have hfloor0 : 0 ≤ ⌊trainFraction * (nb:ℚ)⌋ := Int.floor_nonneg.mpr hx0
  have hxle : trainFraction * (nb:ℚ) ≤ (nb:ℚ) := by
    have h1 : trainFraction ≤ 1 := by norm_num [trainFraction]
    have h0 : (0:ℚ) ≤ (nb:ℚ) := by positivity
    exact mul_le_of_le_one_left h0 h1
  have hfloorle : ⌊trainFraction * (nb:ℚ)⌋ ≤ (nb:ℤ) := by
    have := Int.floor_le_floor hxle
    simpa using this
  have hceil : ⌈(1 - trainFraction) * (nb:ℚ)⌉ = (nb:ℤ) - ⌊trainFraction * (nb:ℚ)⌋ := by
    have hrw : (1 - trainFraction) * (nb:ℚ) = -(trainFraction * nb) + ((nb:ℤ):ℚ) := by
      push_cast; ring
    rw [hrw, Int.ceil_add_int, Int.ceil_neg]
    ring
  refine ⟨?_, ?_, ?_⟩
  · unfold nTrainOf nTestOf
    rw [hceil]
    omega
  · rintro ⟨htr, -⟩
    have hQ : ((50 * nTrainOf nb : ℕ) : ℚ) = ((33 * nb : ℕ) : ℚ) := by
      push_cast
      rw [htr]
      simp [trainFraction]
      ring
    have heq : 50 * nTrainOf nb = 33 * nb := by exact_mod_cast hQ
    have hdvd : 50 ∣ nb * 33 := ⟨nTrainOf nb, by omega⟩
    have hco : Nat.Coprime 50 33 := by decide
    exact hco.dvd_of_dvd_mul_right hdvd
  · rintro ⟨k, rfl⟩
    have h1 : trainFraction * ((50 * k : ℕ) : ℚ) = ((33 * k : ℕ) : ℚ) := by
      push_cast
      simp only [trainFraction]
      ring
    have h2 : (1 - trainFraction) * ((50 * k : ℕ) : ℚ) = ((17 * k : ℕ) : ℚ) := by
      push_cast
      simp only [trainFraction]
      ring
    constructor
    · unfold nTrainOf
      rw [h1, Int.floor_natCast, Int.toNat_natCast]
    · unfold nTestOf
      rw [h2, Int.ceil_natCast, Int.toNat_natCast]

/-- C2 amended, witness: a center with `nb = 100` rows gets `66` train
rows and `34` test rows, matching the fractions exactly. -/
theorem heart_c2_amended_witness :
    nTrainOf 100 + nTestOf 100 = 100 ∧ (SplitFractionExact 100 ↔ 50 ∣ 100) :=
  heart_c2_amended 100

/-- C3: for every center of `nb` retained rows and whatever list of test
indices `train_test_split` returned, the assignment loop labels each
index in `0..nb-1` with exactly one of `"train"` or `"test"`: the train
and test index sets are disjoint and their union is the whole center. -/
theorem heart_c3_sets_partition (nb : ℕ) (indicesTest : List ℕ) :
    trainIndices nb indicesTest ∪ testIndices nb indicesTest = Finset.range nb ∧
      Disjoint (trainIndices nb indicesTest) (testIndices nb indicesTest) ∧
      ∀ i < nb, ((setsOfCenter nb indicesTest).getD i "" = "train" ↔
        ¬ (setsOfCenter nb indicesTest).getD i "" = "test") := by
  refine ⟨?_, ?_, ?_⟩
  · ext i
    simp only [Finset.mem_union, trainIndices, testIndices, Finset.mem_filter,
      Finset.mem_range]
    constructor
    · rintro (⟨h, -⟩ | ⟨h, -⟩) <;> exact h
    · intro h
      simp only [setsOfCenter_getD nb indicesTest i h]
      by_cases hm : i ∈ indicesTest <;> simp [hm, h]
  · rw [Finset.disjoint_left]
    intro i hitr hite
    simp only [trainIndices, testIndices, Finset.mem_filter, Finset.mem_range] at hitr hite
    obtain ⟨hi, htr⟩ := hitr
    obtain ⟨-, hte⟩ := hite
    rw [setsOfCenter_getD nb indicesTest i hi] at htr hte
    by_cases hm : i ∈ indicesTest <;> simp [hm] at htr hte
  · intro i hi
    rw [setsOfCenter_getD nb indicesTest i hi]
    by_cases hm : i ∈ indicesTest <;> simp [hm]

/-- C3, witness: a two-row center whose test indices are `[1]`; index
`0` is labelled `"train"` and not `"test"`. -/
theorem heart_c3_sets_partition_witness :
    (setsOfCenter 2 [1]).getD 0 "" = "train" ↔
      ¬ (setsOfCenter 2 [1]).getD 0 "" = "test" :=
  (heart_c3_sets_partition 2 [1]).2.2 0 (by decide)

/-! ## Heart disease partitioner: labels and stratification

`__init__` binarizes labels with `labels.where(labels == 0, 1)` (keep
`0`, put `1` everywhere else).  For each center it passes
`stratify=current_labels` to `train_test_split` only when
`len(np.unique(current_labels)) > 1` and every level occurs more than
twice; otherwise it passes `stratify=None`. -/

/-- `where(y == 0, 1)`: an original label `0` is kept, every other
value becomes `1`. -/
def binarizeLabel (y : ℚ) : ℚ := if y = 0 then 0 else 1

/-- The condition guarding `stratify = current_labels` in `__init__`:
more than one distinct binarized level and each level counted more than
`2` times. -/
def stratifyCondition (labels : List ℚ) : Prop :=
  1 < ((labels.map binarizeLabel).dedup).length ∧
    ∀ lev ∈ (labels.map binarizeLabel).dedup,
      2 < (labels.map binarizeLabel).count lev

instance (labels : List ℚ) : Decidable (stratifyCondition labels) := by
  unfold stratifyCondition; infer_instance

/-- The `stratify` argument handed to `train_test_split`: the binarized
labels when the guard holds, `None` otherwise. -/
def stratifyArg (labels : List ℚ) : Option (List ℚ) :=
  if stratifyCondition labels then some (labels.map binarizeLabel) else none

/-- Whether the center's split is stratified at all. -/
def splitIsStratified (labels : List ℚ) : Bool := (stratifyArg labels).isSome

/-- A pandas dataframe of one center after `dropna`/`to_numeric`:
numeric feature rows and the numeric label column. -/
structure CenterData where
  rows : List (List ℚ)
  labels : List ℚ

/-- `self.features` rows accumulated over all centers (`pd.concat` with
`ignore_index=True`). -/
def allRows (cs : List CenterData) : List (List ℚ) := (cs.map CenterData.rows).flatten

/-- `self.labels` accumulated over all centers before binarization. -/
def allLabels (cs : List CenterData) : List ℚ := (cs.map CenterData.labels).flatten

/-- `self.labels` after `labels.where(labels == 0, 1, inplace=True)`. -/
def binarizedLabels (cs : List CenterData) : List ℚ :=
  (allLabels cs).map binarizeLabel

/-- C4, counterexample: a center whose retained rows all carry disease
labels (here `2, 3, 4`, all binarized to `1`) fails the guard, so
`__init__` passes `stratify=None` and the split is a plain shuffle
split, not a stratified one as the claim states for every center. -/
theorem heart_c4_counterexample : splitIsStratified [2, 3, 4] = false := by decide

/-- C4, amended: the per-center split is computed with the fixed seed
`43` as a deterministic function of the center data, but it is
stratified by the binarized labels only when those labels take more than
one value and every value occurs more than twice; otherwise the split is
an unstratified shuffle split. -/
theorem heart_c4_amended (labels : List ℚ) :
    (stratifyArg labels = some (labels.map binarizeLabel) ↔ stratifyCondition labels) ∧
      (stratifyArg labels = none ↔ ¬ stratifyCondition labels) := by
  unfold stratifyArg
  by_cases h : stratifyCondition labels <;> simp [h]

/-- C4 amended, witness: a center with three healthy and three diseased
rows satisfies the guard, so its split is stratified by the binarized
labels. -/
theorem heart_c4_amended_witness :
    (stratifyArg [0, 0, 0, 1, 1, 1] = some (([0, 0, 0, 1, 1, 1] : List ℚ).map binarizeLabel) ↔
        stratifyCondition [0, 0, 0, 1, 1, 1]) ∧
      (stratifyArg [0, 0, 0, 1, 1, 1] = none ↔ ¬ stratifyCondition [0, 0, 0, 1, 1, 1]) :=
  heart_c4_amended [0, 0, 0, 1, 1, 1]

/-- C9: after construction every entry of `self.labels` is `0` or `1`:
`0` is kept and any other original value is mapped to `1`. -/
theorem heart_c9_labels_binary (cs : List CenterData) :
    (∀ l ∈ binarizedLabels cs, l = 0 ∨ l = 1) ∧
      binarizeLabel 0 = 0 ∧ ∀ y : ℚ, y ≠ 0 → binarizeLabel y = 1 := by
  refine ⟨?_, by simp [binarizeLabel], ?_⟩
  · intro l hl
    obtain ⟨y, -, rfl⟩ := List.mem_map.mp hl
    unfold binarizeLabel
    by_cases hy : y = 0 <;> simp [hy]
  · intro y hy
    simp [binarizeLabel, hy]

/-- C9, witness: in a dataset whose raw labels are `0` and `3`, the
binarized label list is `[0, 1]` and the invariant applies to `1`. -/
theorem heart_c9_labels_binary_witness :
    (1:ℚ) ∈ binarizedLabels [⟨[[5], [6]], [0, 3]⟩] ∧ ((1:ℚ) = 0 ∨ (1:ℚ) = 1) := by
  have h1 : (1:ℚ) ∈ binarizedLabels [⟨[[5], [6]], [0, 3]⟩] := by
    simp [binarizedLabels, allLabels, binarizeLabel]
  exact ⟨h1, (heart_c9_labels_binary [⟨[[5], [6]], [0, 3]⟩]).1 1 h1⟩

/-! ## `data_path` validation in `HeartDiseaseRaw.__init__`

`if data_path is None: ... check_dataset_from_config(...) else:
if not os.path.exists(data_path): raise ValueError(...)`. -/

/-- The `data_path` handling at the top of `__init__`: with
`data_path=None` the directory comes from the configuration file and no
path check happens; otherwise a non-existing path raises `ValueError`.
`pathExists` stands for `os.path.exists` and `configDir` for the
directory read by `check_dataset_from_config`. -/
def initDataDir (dataPath : Option String) (pathExists : String → Bool)
    (configDir : String) : Except String String :=
  match dataPath with
  | none => .ok configDir
  | some p =>
    if pathExists p then .ok p
    else .error ("The string " ++ p ++ " is not a valid path.")

/-- C6: `__init__` raises `ValueError` if and only if a non-`None`
`data_path` is given that does not exist; with `data_path=None` the
directory is the configured one and no path check is performed. -/
theorem heart_c6_valueerror (dataPath : Option String) (pathExists : String → Bool)
    (configDir : String) :
    ((∃ e, initDataDir dataPath pathExists configDir = .error e) ↔
        (∃ p, dataPath = some p ∧ pathExists p = false)) ∧
      (dataPath = none → initDataDir dataPath pathExists configDir = .ok configDir) := by
  constructor
  · constructor
    · rintro ⟨e, he⟩
      cases dataPath with
      | none => simp [initDataDir] at he
      | some p =>
        refine ⟨p, rfl, ?_⟩
        by_cases hp : pathExists p <;> simp [initDataDir, hp] at he ⊢
    · rintro ⟨p, rfl, hp⟩
      refine ⟨"The string " ++ p ++ " is not a valid path.", ?_⟩
      simp [initDataDir, hp]
  · rintro rfl
    rfl

/-- C6, witness: with `data_path=None` the dataset directory is the
configured one, and a given but missing path is exactly the error
case. -/
theorem heart_c6_valueerror_witness :
    initDataDir none (fun _ => false) "from_config" = .ok "from_config" :=
  (heart_c6_valueerror none (fun _ => false) "from_config").2 rfl

/-! ## Results plotter (`flamby/results/plot_results.py`)

For each dataset the script removes `"Pooled Test"` rows, keeps rows
whose `Method` is one of `["Pooled Training"] + ["Local i"] +
strategies`, and asserts the per-method row counts before calling
`sns.barplot`. -/

/-- One row of a concatenated results CSV: columns
`{Method, Metric, Test, seed}`. -/
structure ResultRow where
  method : String
  metric : ℚ
  test : String
  seed : ℕ

/-- `strategies_names` from `plot_results.py`. -/
def strategiesNames : List String :=
  ["FedAvg", "Scaffold", "FedProx", "Cyclic", "FedAdagrad", "FedYogi", "FedAdam"]

/-- `strategies = [strat + str(100) for strat in strategies_names]`. -/
def strategies : List String := strategiesNames.map (fun s => s ++ "100")

/-- `current_methods = ["Pooled Training"] + ["Local " + str(i) for i in
range(current_num_clients)] + strategies`. -/
def currentMethods (numClients : ℕ) : List String :=
  ["Pooled Training"] ++ (List.range numClients).map (fun i => "Local " ++ toString i)
    ++ strategies

/-- `res.loc[res["Test"] != "Pooled Test"]` followed by
`res.loc[res["Method"].isin(current_methods)]`. -/
def filterRows (rows : List ResultRow) (numClients : ℕ) : List ResultRow :=
  (rows.filter (fun r => decide (r.test ≠ "Pooled Test"))).filter
    (fun r => decide (r.method ∈ currentMethods numClients))

/-- `len(res.loc[res["Method"] == m].index)`. -/
def methodCount (rows : List ResultRow) (m : String) : ℕ :=
  (rows.filter (fun r => decide (r.method = m))).length

/-- The per-method row count the script expects: `current_num_clients * 5`
in the multi-seed branch, `current_num_clients` for the LIDC dataset. -/
def expectedRowsOf (numClients : ℕ) (isLidc : Bool) : ℕ :=
  if isLidc then numClients else numClients * 5

/-- All `assert` statements the script runs for one dataset before
rendering its bar chart, in program order: the method-uniqueness assert,
then (non-LIDC only) the five-seeds assert, then the per-method row-count
asserts.  `true` means every assertion passed. -/
def plotAsserts (rows : List ResultRow) (numClients : ℕ) (isLidc : Bool) : Bool :=
  let res := filterRows rows numClients
  (decide ((res.map ResultRow.method).dedup.length = (currentMethods numClients).length)) &&
    (if isLidc then
      (currentMethods numClients).all (fun m => decide (methodCount res m = numClients))
    else
      (decide ((res.map ResultRow.seed).dedup.length = 5)) &&
        (currentMethods numClients).all
          (fun m => decide (methodCount res m = numClients * 5)))

/-- C5: if after the `"Pooled Test"` filtering some expected method's
row count differs from `clients * 5` (or from `clients` for LIDC), then
one of the script's assertions fails, so an uncaught `AssertionError`
aborts the script before the bar chart for that dataset is rendered. -/
theorem plot_c5_assert_row_counts (rows : List ResultRow) (numClients : ℕ)
    (isLidc : Bool) (m : String) (hm : m ∈ currentMethods numClients)
    (hcount : methodCount (filterRows rows numClients) m ≠ expectedRowsOf numClients isLidc) :
    plotAsserts rows numClients isLidc = false := by
  rw [Bool.eq_false_iff]
  intro htrue
  unfold plotAsserts at htrue
  rw [Bool.and_eq_true] at htrue
  obtain ⟨-, hrest⟩ := htrue
  cases isLidc with
  | true =>
    rw [if_pos rfl] at hrest
    rw [List.all_eq_true] at hrest
    have := hrest m hm
    rw [decide_eq_true_iff] at this
    exact hcount (by simpa [expectedRowsOf] using this)
  | false =>
    rw [if_neg (by simp)] at hrest
    rw [Bool.and_eq_true] at hrest
    obtain ⟨-, hall⟩ := hrest
    rw [List.all_eq_true] at hall
    have := hall m hm
    rw [decide_eq_true_iff] at this
    exact hcount (by simpa [expectedRowsOf] using this)

/-- C5, witness: an empty results table for a one-client dataset gives
`"Pooled Training"` zero rows instead of the expected five, and the
assertion check indeed fails. -/
theorem plot_c5_assert_row_counts_witness :
    "Pooled Training" ∈ currentMethods 1 ∧
      methodCount (filterRows [] 1) "Pooled Training" ≠ expectedRowsOf 1 false ∧
      plotAsserts [] 1 false = false := by
  refine ⟨by decide, by decide, ?_⟩
  exact plot_c5_assert_row_counts [] 1 false "Pooled Training" (by decide) (by decide)

/-! ## `update_config.py` (fed_camelyon16 dataset creation scripts)

The script's arg parser declares
`parser.add_argument("--new-path", type=int, ..., required=True)` and an
optional `--debug` flag, then runs
`write_config(path_to_config_file, "dataset_path", args.new_path)`. -/

/-- argparse applies the declared `type=int` converter to the raw
`--new-path` string; model of Python's `int(...)`: an optional sign
followed by one or more decimal digits, anything else raises
`ValueError` (which argparse turns into an error exit). -/
def parseNewPath (s : String) : Option Int :=
  let cs := s.toList
  let signed : Int × List Char :=
    match cs with
    | '-' :: rest => (-1, rest)
    | '+' :: rest => (1, rest)
    | _ => (1, cs)
  if !signed.2.isEmpty && signed.2.all Char.isDigit then
    some (signed.1 * (signed.2.foldl (fun acc c => 10 * acc + ((c.toNat : Int) - 48)) 0))
  else none

/-- The script's behaviour on a `--new-path` value: argparse exits with
an error when the `type=int` conversion fails, otherwise
`write_config` stores the converted value under `dataset_path`. -/
def updateConfigRun (newPathArg : String) (cfg : List (String × Int)) :
    Except String (List (String × Int)) :=
  match parseNewPath newPathArg with
  | none => .error "argument --new-path: invalid int value"
  | some v => .ok (("dataset_path", v) :: cfg.filter (fun kv => decide (kv.1 ≠ "dataset_path")))

/-- C7: the script is meant to accept a relocated dataset's filesystem
path (its own help text says "The new path where the dataset has been
oved to"), but `--new-path` is declared with `type=int`, so a path such
as `/new/dataset/location` is rejected by argparse and never written to
the configuration file. -/
theorem update_config_c7_path_rejected :
    updateConfigRun "/new/dataset/location" [] =
      .error "argument --new-path: invalid int value" := by
  have h : parseNewPath "/new/dataset/location" = none := by decide
  simp [updateConfigRun, h]

/-! ## Heart disease normalization statistics

`__init__` stacks all feature rows into `features_tensor` and computes
`mean_of_features = features_tensor.mean(axis=0)` and
`std_of_features = features_tensor.std(axis=0)`; `torch.std` is the
square root of the unbiased sample variance (denominator `n - 1`).
`__getitem__` then returns
`(features[idx] - mean_of_features) / std_of_features, labels[idx]`.
The statistics act column by column, so they are embedded on one
feature column at a time, the column being extracted by `nthCol`. -/

/-- Feature column `j` of a list of rows. -/
def nthCol (rows : List (List ℚ)) (j : ℕ) : List ℚ := rows.map (fun r => r.getD j 0)

/-- `features_tensor.mean(axis=0)` on one column. -/
noncomputable def colMean (xs : List ℚ) : ℝ := (xs.map (fun x : ℚ => (x:ℝ))).sum / xs.length

/-- The unbiased sample variance torch uses under `torch.std`:
`sum((x - mean)^2) / (n - 1)`. -/
noncomputable def colVar (xs : List ℚ) : ℝ :=
  (xs.map (fun x : ℚ => ((x:ℝ) - colMean xs)^2)).sum / (xs.length - 1)

/-- `features_tensor.std(axis=0)` on one column. -/
noncomputable def colStd (xs : List ℚ) : ℝ := Real.sqrt (colVar xs)

/-- `self.mean_of_features[j]`: mean of column `j` over the rows of all
loaded centers. -/
noncomputable def meanOfFeatures (cs : List CenterData) (j : ℕ) : ℝ :=
  colMean (nthCol (allRows cs) j)

/-- `self.std_of_features[j]`. -/
noncomputable def stdOfFeatures (cs : List CenterData) (j : ℕ) : ℝ :=
  colStd (nthCol (allRows cs) j)

/-- The two exceptions `__getitem__` can surface: its own
`assert idx < len(self.features)` and Python's list `IndexError`. -/
inductive PyExn where
  | assertionError : PyExn
  | indexError : PyExn
deriving DecidableEq

/-- Python list indexing `lst[i]` on a list of length `n`: nonnegative
indices below `n` are used as is, indices in `[-n, 0)` wrap around to
`n + i`, anything else raises `IndexError`. -/
def pyListIndex (n : ℕ) (i : ℤ) : Option ℕ :=
  if 0 ≤ i then (if i < (n:ℤ) then some i.toNat else none)
  else if -(n:ℤ) ≤ i then some (((n:ℤ) + i).toNat) else none

/-- The sample `__getitem__` builds at resolved position `k`: for every
feature index `j` the value `(features[k][j] - mean[j]) / std[j]`,
paired with the binarized label `labels[k]`. -/
noncomputable def sampleAt (cs : List CenterData) (k : ℕ) : (ℕ → ℝ) × ℚ :=
  (fun j => (((((allRows cs).getD k []).getD j 0 : ℚ) : ℝ) - meanOfFeatures cs j) /
      stdOfFeatures cs j,
    (binarizedLabels cs).getD k 0)

/-- `HeartDiseaseRaw.__getitem__`: `assert idx < len(self.features)`,
then Python indexing of the features list and the labels tensor and the
normalization by the global statistics. -/
noncomputable def getitem (cs : List CenterData) (idx : ℤ) : Except PyExn ((ℕ → ℝ) × ℚ) :=
  if idx < ((allRows cs).length : ℤ) then
    match pyListIndex (allRows cs).length idx with
    | some k => .ok (sampleAt cs k)
    | none => .error .indexError
  else .error .assertionError

/-- Follows the spec's words for C8: the per-feature mean taken over all
loaded samples of all centers, train and test together. -/
noncomputable def specGlobalMean (cs : List CenterData) (j : ℕ) : ℝ :=
  (cs.map (fun c => ((nthCol c.rows j).map (fun x : ℚ => (x:ℝ))).sum)).sum /
    (cs.map (fun c => c.rows.length)).sum

/-- Follows the spec's words for C8: the per-feature standard deviation
over all loaded samples of all centers. -/
noncomputable def specGlobalStd (cs : List CenterData) (j : ℕ) : ℝ :=
  Real.sqrt
    ((cs.map (fun c =>
        ((nthCol c.rows j).map (fun x : ℚ => ((x:ℝ) - specGlobalMean cs j)^2)).sum)).sum /
      ((cs.map (fun c => c.rows.length)).sum - 1))

theorem nthCol_allRows (cs : List CenterData) (j : ℕ) :
    nthCol (allRows cs) j = (cs.map (fun c => nthCol c.rows j)).flatten := by
  simp [nthCol, allRows, List.map_flatten, List.map_map, Function.comp_def]

theorem length_nthCol_allRows (cs : List CenterData) (j : ℕ) :
    (nthCol (allRows cs) j).length = (cs.map (fun c => c.rows.length)).sum := by
  rw [nthCol_allRows]
  simp [List.length_flatten, nthCol, List.map_map, Function.comp_def]

theorem sum_map_nthCol_allRows (cs : List CenterData) (j : ℕ) (f : ℚ → ℝ) :
    ((nthCol (allRows cs) j).map f).sum =
      (cs.map (fun c => ((nthCol c.rows j).map f).sum)).sum := by
  rw [nthCol_allRows, List.map_flatten, List.sum_flatten]
  simp [List.map_map, Function.comp_def]

/-- C8: `mean_of_features` and `std_of_features` are the per-feature
mean and (unbiased) standard deviation over all loaded samples of all
centers, train and test together, and for an in-range index
`__getitem__` returns exactly
`(features[idx] - mean_of_features) / std_of_features` paired with
`labels[idx]`. -/
theorem heart_c8_global_stats (cs : List CenterData) (j : ℕ) (idx : ℤ)
    (h0 : 0 ≤ idx) (hlt : idx < ((allRows cs).length : ℤ)) :
    meanOfFeatures cs j = specGlobalMean cs j ∧
      stdOfFeatures cs j = specGlobalStd cs j ∧
      getitem cs idx = .ok (sampleAt cs idx.toNat) := by
  have hmean : meanOfFeatures cs j = specGlobalMean cs j := by
    unfold meanOfFeatures specGlobalMean colMean
    rw [sum_map_nthCol_allRows]
    rw [length_nthCol_allRows cs j]
  refine ⟨hmean, ?_, ?_⟩
  · unfold stdOfFeatures specGlobalStd colStd colVar
    rw [sum_map_nthCol_allRows]
    rw [length_nthCol_allRows cs j]
    rw [← hmean]
    unfold meanOfFeatures
    rfl
  · unfold getitem
    rw [if_pos hlt]
    unfold pyListIndex
    rw [if_pos h0, if_pos hlt]

/-- C8, witness: a two-sample single-feature dataset, read at index
`0`. -/
theorem heart_c8_global_stats_witness :
    (0:ℤ) ≤ 0 ∧ (0:ℤ) < ((allRows [⟨[[1], [3]], [0, 2]⟩]).length : ℤ) ∧
      getitem [⟨[[1], [3]], [0, 2]⟩] 0 = .ok (sampleAt [⟨[[1], [3]], [0, 2]⟩] (0:ℤ).toNat) :=
  ⟨by decide, by decide,
    (heart_c8_global_stats [⟨[[1], [3]], [0, 2]⟩] 0 0 (by decide) (by decide)).2.2⟩

/-! ## C1: what normalization achieves on the train split

The normalization constants are the global ones, so the claim compares
the train-split statistics of the normalized values against `0` and `1`.
The train split is the complement of the test index set chosen by the
seeded `train_test_split`; the statements below quantify over every
index set of the size that call produces, which covers in particular
the one the fixed seed yields. -/

/-- Mean over the train split (the complement of the test index set
`t`) of the normalized values `__getitem__` returns for one feature
column. -/
noncomputable def trainNormMean (xs : List ℚ) (t : Finset (Fin xs.length)) : ℝ :=
  (∑ i ∈ tᶜ, (((xs.get i : ℚ) : ℝ) - colMean xs) / colStd xs) / (tᶜ.card)

/-- Unbiased sample variance over the train split of the normalized
values of one feature column. -/
noncomputable def trainNormVar (xs : List ℚ) (t : Finset (Fin xs.length)) : ℝ :=
  (∑ i ∈ tᶜ, ((((xs.get i : ℚ) : ℝ) - colMean xs) / colStd xs - trainNormMean xs t)^2) /
    (tᶜ.card - 1)

/-- The claimed property of one feature column: whatever test index set
of the size produced by `train_test_split` is drawn, the normalized
column has zero mean and unit variance on the remaining train split. -/
def TrainSplitNormalized (xs : List ℚ) : Prop :=
  ∀ t : Finset (Fin xs.length), t.card = nTestOf xs.length →
    trainNormMean xs t = 0 ∧ trainNormVar xs t = 1

/-- Total failure of the zero-mean part on one column: every admissible
test index set leaves a train split with nonzero normalized mean. -/
def TrainNormMeanAlwaysOff (xs : List ℚ) : Prop :=
  ∀ t : Finset (Fin xs.length), t.card = nTestOf xs.length → trainNormMean xs t ≠ 0

/-- C1, counterexample: a center with feature column `[0, 1, 4]` (three
retained rows, so two test rows and one train row).  Whichever test
index set the seeded shuffle draws, the single train sample normalizes
to a nonzero value, so the train-split mean is not `0` and the claim
fails; in particular `TrainSplitNormalized` fails. -/
theorem heart_c1_counterexample :
    TrainNormMeanAlwaysOff [0, 1, 4] ∧ ¬ TrainSplitNormalized [0, 1, 4] := by
  have hnTest : nTestOf 3 = 2 := by
    unfold nTestOf
    have h : ⌈(1 - trainFraction) * ((3:ℕ):ℚ)⌉ = 2 := by
      rw [Int.ceil_eq_iff]
      · constructor
        · norm_num [trainFraction]
        · norm_num [trainFraction]
    rw [h]
    rfl
  have hμ : colMean [0, 1, 4] = 5/3 := by
    unfold colMean
    norm_num
  have hvar : colVar [0, 1, 4] = 13/3 := by
    unfold colVar
    rw [hμ]
    norm_num
  have hσ : colStd [0, 1, 4] ≠ 0 := by
    unfold colStd
    rw [hvar]
    exact Real.sqrt_ne_zero'.mpr (by norm_num)
  have hmain : TrainNormMeanAlwaysOff [0, 1, 4] := by
    intro t ht
    have ht2 : t.card = 2 := ht.trans hnTest
    have hcompl : tᶜ.card = 1 := by
      rw [Finset.card_compl, ht2]
      rfl
    obtain ⟨i, hi⟩ := Finset.card_eq_one.mp hcompl
    unfold trainNormMean
    rw [hi, Finset.sum_singleton, Finset.card_singleton]
    rw [hμ]
    push_cast
    rw [div_one]
    fin_cases i <;>
      · simp only [List.get]
        refine div_ne_zero ?_ hσ
        norm_num
  refine ⟨hmain, fun h => ?_⟩
  have hcard : ({⟨0, by decide⟩, ⟨1, by decide⟩} :
      Finset (Fin (([0, 1, 4] : List ℚ).length))).card =
      nTestOf (([0, 1, 4] : List ℚ).length) := by
    have h2 : ({⟨0, by decide⟩, ⟨1, by decide⟩} :
        Finset (Fin (([0, 1, 4] : List ℚ).length))).card = 2 := by decide
    exact h2.trans hnTest.symm
  exact hmain _ hcard (h _ hcard).1

theorem sum_map_div (xs : List ℚ) (f : ℚ → ℝ) (c : ℝ) :
    (xs.map (fun x : ℚ => f x / c)).sum = (xs.map f).sum / c := by
  induction xs with
  | nil => simp
  | cons a l ih => simp [ih, add_div]

theorem sum_map_sub_const (xs : List ℚ) (f : ℚ → ℝ) (c : ℝ) :
    (xs.map (fun x : ℚ => f x - c)).sum = (xs.map f).sum - xs.length * c := by
  induction xs with
  | nil => simp
  | cons a l ih =>
    simp only [List.map_cons, List.sum_cons, ih, List.length_cons]
    push_cast
    ring

/-- The full normalized feature column that `__getitem__` exposes:
every loaded sample, train and test together. -/
noncomputable def normalizedCol (xs : List ℚ) : List ℝ :=
  xs.map (fun x : ℚ => ((x:ℝ) - colMean xs) / colStd xs)

/-- Mean of a list of reals (population mean). -/
noncomputable def listMeanR (l : List ℝ) : ℝ := l.sum / l.length

/-- Unbiased sample variance of a list of reals. -/
noncomputable def listVarR (l : List ℝ) : ℝ :=
  (l.map (fun y => (y - listMeanR l)^2)).sum / (l.length - 1)

theorem colVar_nonneg (xs : List ℚ) (h2 : 2 ≤ xs.length) : 0 ≤ colVar xs := by
  unfold colVar
  apply div_nonneg
  · apply List.sum_nonneg
    intro a ha
    obtain ⟨x, -, rfl⟩ := List.mem_map.mp ha
    positivity
  · have : (2:ℝ) ≤ xs.length := by exact_mod_cast h2
    linarith

/-- C1, amended: the normalization in `__getitem__` yields zero mean
and unit (unbiased) variance per feature over all loaded samples of all
centers together, not over the train split alone; this holds whenever
the column has at least two samples and nonzero variance. -/
theorem heart_c1_amended (xs : List ℚ) (h2 : 2 ≤ xs.length) (hv : colVar xs ≠ 0) :
    listMeanR (normalizedCol xs) = 0 ∧ listVarR (normalizedCol xs) = 1 := by
  have hn : (0:ℝ) < xs.length := by
    have : 0 < xs.length := by omega
    exact_mod_cast this
  have hn1 : (xs.length : ℝ) - 1 ≠ 0 := by
    have : (2:ℝ) ≤ (xs.length:ℝ) := by exact_mod_cast h2
    linarith
  have hvpos : 0 < colVar xs := lt_of_le_of_ne (colVar_nonneg xs h2) (Ne.symm hv)
  have hσ : colStd xs ≠ 0 := ne_of_gt (Real.sqrt_pos.mpr hvpos)
  have hσsq : colStd xs ^ 2 = colVar xs := Real.sq_sqrt (le_of_lt hvpos)
  have hlen : (normalizedCol xs).length = xs.length := by simp [normalizedCol]
  have hsum : (normalizedCol xs).sum = 0 := by
    unfold normalizedCol
    rw [sum_map_div xs (fun x : ℚ => (x:ℝ) - colMean xs) (colStd xs)]
    rw [sum_map_sub_const xs (fun x : ℚ => (x:ℝ)) (colMean xs)]
    have hz : (xs.map (fun x : ℚ => (x:ℝ))).sum - xs.length * colMean xs = 0 := by
      unfold colMean
      field_simp
    rw [hz, zero_div]
  have hmean : listMeanR (normalizedCol xs) = 0 := by
    unfold listMeanR
    rw [hsum, zero_div]
  refine ⟨hmean, ?_⟩
  unfold listVarR
  simp only [hmean, sub_zero]
  rw [hlen]
  unfold normalizedCol
  rw [List.map_map]
  have hfun : ((fun y : ℝ => y^2) ∘ (fun x : ℚ => ((x:ℝ) - colMean xs) / colStd xs)) =
      fun x : ℚ => ((x:ℝ) - colMean xs)^2 / colStd xs ^ 2 := by
    funext x
    simp [Function.comp, div_pow]
  rw [hfun]
  rw [sum_map_div xs (fun x : ℚ => ((x:ℝ) - colMean xs)^2) (colStd xs ^ 2)]
  rw [hσsq]
  have hS : (xs.map (fun x : ℚ => ((x:ℝ) - colMean xs)^2)).sum =
      colVar xs * ((xs.length:ℝ) - 1) := by
    unfold colVar
    field_simp
  rw [hS]
  field_simp

/-- C1 amended, witness: the column `[0, 2]` has mean `1`, variance `2`,
and its normalized version has zero mean and unit variance. -/
theorem heart_c1_amended_witness :
    2 ≤ ([0, 2] : List ℚ).length ∧ colVar [0, 2] ≠ 0 ∧
      (listMeanR (normalizedCol [0, 2]) = 0 ∧ listVarR (normalizedCol [0, 2]) = 1) := by
  have hμ : colMean [0, 2] = 1 := by
    unfold colMean
    norm_num
  have hv : colVar ([0, 2] : List ℚ) ≠ 0 := by
    unfold colVar
    rw [hμ]
    norm_num
  exact ⟨by decide, hv, heart_c1_amended [0, 2] (by decide) hv⟩

/-! ## C10: `__getitem__` bounds behaviour

`assert idx < len(self.features)` only guards one side, so negative
indices reach Python's list indexing: those in `[-len, 0)` wrap around,
while anything below `-len` raises `IndexError`. -/

/-- C10, counterexample: on a two-sample dataset the claim says any
negative index returns a sample through wrap-around, but `idx = -3`
passes the bounds assertion and then raises `IndexError` from the list
access instead of returning a sample. -/
theorem heart_c10_counterexample :
    getitem [⟨[[1], [2]], [0, 1]⟩] (-3) = .error .indexError := by
  unfold getitem
  rw [if_pos (by decide)]
  have hp : pyListIndex (allRows [⟨[[1], [2]], [0, 1]⟩]).length (-3) = none := by decide
  rw [hp]

/-- C10, amended: `__getitem__` raises `AssertionError` exactly when
`idx >= len(self.features)`; any negative `idx` passes the assertion,
and those with `-len <= idx < 0` return the sample at `len + idx` via
Python's wrap-around (so `idx = -1` is the last sample), while
`idx < -len` raises `IndexError` instead of being rejected by the
assertion. -/
theorem heart_c10_amended (cs : List CenterData) (idx : ℤ) :
    (getitem cs idx = .error .assertionError ↔ ((allRows cs).length : ℤ) ≤ idx) ∧
      (idx < -((allRows cs).length : ℤ) → getitem cs idx = .error .indexError) ∧
      (-((allRows cs).length : ℤ) ≤ idx → idx < 0 →
        getitem cs idx = getitem cs (((allRows cs).length : ℤ) + idx)) := by
  refine ⟨?_, ?_, ?_⟩
  · unfold getitem
    by_cases hlt : idx < ((allRows cs).length : ℤ)
    · rw [if_pos hlt]
      constructor
      · intro hcontra
        cases hp : pyListIndex (allRows cs).length idx with
        | some k => rw [hp] at hcontra; simp at hcontra
        | none => rw [hp] at hcontra; simp at hcontra
      · intro hge
        omega
    · rw [if_neg hlt]
      constructor
      · intro _
        omega
      · intro _
        rfl
  · intro hlow
    have h1 : idx < ((allRows cs).length : ℤ) := by omega
    unfold getitem
    rw [if_pos h1]
    have hp : pyListIndex (allRows cs).length idx = none := by
      unfold pyListIndex
      rw [if_neg (by omega), if_neg (by omega)]
    rw [hp]
  · intro hge hneg
    have h1 : idx < ((allRows cs).length : ℤ) := by omega
    have h2 : ((allRows cs).length : ℤ) + idx < ((allRows cs).length : ℤ) := by omega
    have h3 : (0:ℤ) ≤ ((allRows cs).length : ℤ) + idx := by omega
    unfold getitem
    rw [if_pos h1, if_pos h2]
    have hp1 : pyListIndex (allRows cs).length idx =
        some (((allRows cs).length : ℤ) + idx).toNat := by
      unfold pyListIndex
      rw [if_neg (by omega), if_pos hge]
    have hp2 : pyListIndex (allRows cs).length (((allRows cs).length : ℤ) + idx) =
        some (((allRows cs).length : ℤ) + idx).toNat := by
      unfold pyListIndex
      rw [if_pos h3, if_pos h2]
    rw [hp1, hp2]

/-- C10 amended, witness: on a two-sample dataset, `idx = -1` wraps
around to the sample at position `2 + (-1) = 1`, the last one. -/
theorem heart_c10_amended_witness :
    -((allRows [⟨[[1], [2]], [0, 1]⟩]).length : ℤ) ≤ -1 ∧ (-1:ℤ) < 0 ∧
      getitem [⟨[[1], [2]], [0, 1]⟩] (-1) =
        getitem [⟨[[1], [2]], [0, 1]⟩] (((allRows [⟨[[1], [2]], [0, 1]⟩]).length : ℤ) + -1) := by
  refine ⟨by decide, by decide, ?_⟩
  exact (heart_c10_amended [⟨[[1], [2]], [0, 1]⟩] (-1)).2.2 (by decide) (by decide)

end FLamby
